import Mathlib

/-!
Verification of the Atlas Life goal-manager core (the files
"scr/Gestor/Atlas Life - Gestor Unificado.py" and "apps/GestorMetas.py").
Monetary values and running balances are modelled as exact rationals, entry
timestamps as naturals (ISO timestamp strings compare lexicographically in
the same order as the instants they denote), and the stable Python list sort
as insertion sort, which is stable in the same sense.
-/

namespace Atlas

/-- Entry kinds: the `tipo` field of a history entry.
`aporte` is a contribution, `retirada` a withdrawal, `ajuste` a correction. -/
inductive Tipo where
  | aporte
  | retirada
  | ajuste
deriving DecidableEq

/-- One history entry of a goal, mirroring the dictionaries appended by the
Registrar handler: `uid`, `data` (timestamp), `tipo`, `valor`, `descricao`,
and the derived `valor_acumulado` written by `rebuild_goal_state`. -/
structure Entry where
  uid : String
  data : Nat
  tipo : Tipo
  valor : ℚ
  descricao : String
  valor_acumulado : ℚ
deriving DecidableEq

/-- Goal kinds: the `tipo` field of a goal document.
`patrimonio` corresponds to "Patrimônio" (NetWorth). -/
inductive GoalTipo where
  | patrimonio
  | aportePeriodico
deriving DecidableEq

/-- A goal document as created by the "Criar Meta" handler. -/
structure Goal where
  id : String
  nome : String
  tipo : GoalTipo
  objetivo : ℚ
  atual : ℚ
  historico : List Entry
deriving DecidableEq

/-- The sort key used by `rebuild_goal_state`: Python sorts the history with
`key=lambda x: x["data"]`, comparing timestamps only. -/
def entryLE (a b : Entry) : Prop := a.data ≤ b.data

instance : DecidableRel entryLE := fun a b => Nat.decLe a.data b.data

instance : IsTotal Entry entryLE := ⟨fun a b => Nat.le_total a.data b.data⟩

instance : IsTrans Entry entryLE := ⟨fun _ _ _ h1 h2 => Nat.le_trans h1 h2⟩

/-- One step of the rebuild fold: `Aporte` adds `valor` to the running total,
`Retirada` subtracts it, and `Ajuste` overwrites the running total with
`valor`, ignoring the prior balance. -/
def applyEntry (current : ℚ) (e : Entry) : ℚ :=
  match e.tipo with
  | Tipo.aporte => current + e.valor
  | Tipo.retirada => current - e.valor
  | Tipo.ajuste => e.valor

/-- The successive running totals of the rebuild fold, one per entry. -/
def runningTotals (current : ℚ) : List Entry → List ℚ
  | [] => []
  | e :: es => applyEntry current e :: runningTotals (applyEntry current e) es

/-- The loop body of `rebuild_goal_state`: walks the (already sorted) history,
stores the running total after each entry into its `valor_acumulado` field,
and returns the rewritten history together with the final running total. -/
def rebuildLoop (current : ℚ) : List Entry → List Entry × ℚ
  | [] => ([], current)
  | e :: es =>
    let c2 := applyEntry current e
    let rest := rebuildLoop c2 es
    ({ e with valor_acumulado := c2 } :: rest.1, rest.2)

/-- `rebuild_goal_state` from the source: sorts the history by `data`
ascending with the stable list sort, folds from `current = 0.0` setting each
`valor_acumulado`, and writes the final total into `atual`.  It is a total
function: the source version has no failure outcome of any kind. -/
def rebuild_goal_state (g : Goal) : Goal :=
  let sortedHist := List.insertionSort entryLE g.historico
  let looped := rebuildLoop 0 sortedHist
  { g with historico := looped.1, atual := looped.2 }

/-- The condition the edit handler tests after a rebuild, expressed on the
sorted history: some prefix of the timestamp-ordered fold is negative. -/
def hasNegativeStep (es : List Entry) : Prop :=
  ∃ q ∈ runningTotals 0 es, q < 0

/-- LEVEL_BASE_VALUE from the source configuration block. -/
def LEVEL_BASE_VALUE : ℚ := 100

/-- LEVEL_GROWTH_FACTOR from the source configuration block. -/
def LEVEL_GROWTH_FACTOR : ℚ := 2

/-- Fuel-driven base-2 floor logarithm; `lg2Aux fuel n` equals
`Nat.log 2 n` whenever `n ≤ fuel`. -/
def lg2Aux : Nat → Nat → Nat
  | 0, _ => 0
  | fuel + 1, n => if n < 2 then 0 else lg2Aux fuel (n / 2) + 1

/-- Base-2 floor logarithm on naturals, executable by kernel reduction. -/
def lg2 (n : Nat) : Nat := lg2Aux n n

/-- The four components returned by `get_level_info`. -/
structure LevelInfo where
  level : Nat
  current_level_min : ℚ
  needed : ℚ
  progress : ℚ
deriving DecidableEq

/-- `get_level_info` from the source, in exact rational arithmetic.  The
Python expression `int(math.log(t / BASE, GROWTH)) + 1`, for `t ≥ BASE` and
`GROWTH = 2`, truncates a non-negative logarithm, which is the base-2 floor
logarithm of `⌊t / BASE⌋`; it is modelled by `lg2` applied to that floor. -/
def get_level_info (total_patrimony : ℚ) : LevelInfo :=
  let t := max (1 / 10) total_patrimony
  if t < LEVEL_BASE_VALUE then
    { level := 0, current_level_min := 0, needed := LEVEL_BASE_VALUE - t,
      progress := t / LEVEL_BASE_VALUE }
  else
    let level := lg2 (Int.toNat ⌊t / LEVEL_BASE_VALUE⌋) + 1
    let current_level_min := LEVEL_BASE_VALUE * LEVEL_GROWTH_FACTOR ^ (level - 1)
    let next_level_min := LEVEL_BASE_VALUE * LEVEL_GROWTH_FACTOR ^ level
    { level := level, current_level_min := current_level_min,
      needed := next_level_min - t,
      progress := min ((t - current_level_min) / (next_level_min - current_level_min)) 1 }

/-- Modelled from the spec: a Fernet ciphertext produced by the external
cryptography library.  A token is either the empty string (the degenerate
value DataProtector.encrypt returns for empty plaintext) or an authenticated
ciphertext that releases its plaintext only under the sealing key; any other
combination fails closed.  The plaintext type is a parameter so the same
model serves string payloads and the modelled JSON documents below. -/
inductive Token (α : Type) where
  | empty
  | cipher (key : Nat) (plain : α)
deriving DecidableEq

namespace DataProtector

/-- DataProtector.encrypt from the source: an empty string is returned as is
(an empty token); otherwise the plaintext is sealed under the session key. -/
def encrypt (key : Nat) (data_str : String) : Token String :=
  if data_str = "" then Token.empty else Token.cipher key data_str

/-- DataProtector.decrypt from the source: an empty token yields the empty
string, a ciphertext yields its plaintext under the sealing key, and every
failure (wrong key, corrupted token) collapses to `none`. -/
def decrypt (key : Nat) (encrypted_str : Token String) : Option String :=
  match encrypted_str with
  | Token.empty => some ""
  | Token.cipher k p => if k = key then some p else none

end DataProtector

/-- Modelled from the spec: a payload handled by the external json module.
A decrypted goal payload either is the serialization of a goal document or
is junk on which `json.loads` raises. -/
inductive Doc where
  | goalDoc (g : Goal)
  | junk (s : String)
deriving DecidableEq

/-- Modelled from the spec: `json.dumps` of a goal document. -/
def json_dumps (g : Goal) : Doc := Doc.goalDoc g

/-- Modelled from the spec: `json.loads` followed by reading a goal document;
junk fails to parse. -/
def json_loads : Doc → Option Goal
  | Doc.goalDoc g => some g
  | Doc.junk _ => none

/-- Sealing a goal payload: `protector.encrypt(json.dumps(goal))`; a dumped
document is never the empty string, so the token is always a ciphertext. -/
def encrypt_payload (key : Nat) (d : Doc) : Token Doc := Token.cipher key d

/-- Decrypting a stored goal payload combined with the truthiness test
`if dec:` of the source: an empty token decrypts to the empty string, which
is falsy and is dropped like a failed decryption. -/
def decrypt_payload (key : Nat) : Token Doc → Option Doc
  | Token.empty => none
  | Token.cipher k p => if k = key then some p else none

/-- One row of the goals table: `(id, owner, encrypted_payload)`. -/
structure GoalRow where
  id : String
  owner : String
  encrypted_payload : Token Doc
deriving DecidableEq

/-- `get_goals` from the source: select the rows of the owner, decrypt each
payload, keep only truthy decryptions that parse as goal documents, and
silently drop the rest. -/
def get_goals (key : Nat) (username : String) (rows : List GoalRow) : List Goal :=
  (rows.filter (fun r => r.owner == username)).filterMap
    (fun r => (decrypt_payload key r.encrypted_payload).bind json_loads)

/-- The sum computed by `sync_global_patrimony`: the `atual` fields of the
goals whose `tipo` is "Patrimônio". -/
def aggregate (metas : List Goal) : ℚ :=
  ((metas.filter (fun m => m.tipo == GoalTipo.patrimonio)).map Goal.atual).sum

/-- The persisted state the goal mutations touch: the goals table rows of
one owner and the `total_patrimony_enc` cell of the users table. -/
structure DB where
  rows : List GoalRow
  total_patrimony_enc : Token String
deriving DecidableEq

/-- `set_user_patrimony` from the source: seal the printed total under the
session key and store it in the users table. -/
def set_user_patrimony (key : Nat) (total : ℚ) (db : DB) : DB :=
  { db with total_patrimony_enc := DataProtector.encrypt key (toString total) }

/-- `sync_global_patrimony` from the source: reload the goals through
`get_goals`, sum the "Patrimônio" ones and persist the sealed total. -/
def sync_global_patrimony (key : Nat) (username : String) (db : DB) : DB :=
  set_user_patrimony key (aggregate (get_goals key username db.rows)) db

/-- `save_goal` from the source: INSERT OR REPLACE the row keyed by the goal
id (the replaced row reappears at the end of the table), then resynchronize
the global patrimony. -/
def save_goal (key : Nat) (username : String) (g : Goal) (db : DB) : DB :=
  let rows2 := db.rows.filter (fun r => r.id != g.id) ++
    [{ id := g.id, owner := username, encrypted_payload := encrypt_payload key (json_dumps g) }]
  sync_global_patrimony key username { db with rows := rows2 }

/-- `delete_goal` from the source: delete the row keyed by the goal id, then
resynchronize the global patrimony. -/
def delete_goal (key : Nat) (username : String) (goal_id : String) (db : DB) : DB :=
  sync_global_patrimony key username
    { db with rows := db.rows.filter (fun r => r.id != goal_id) }

/-- The "Registrar" handler: a withdrawal larger than the displayed balance
is refused up front (nothing is persisted, modelled by `none`); otherwise a
fresh entry stamped with the current instant is appended, the goal is rebuilt
and persisted. -/
def registrar (g : Goal) (tipo : Tipo) (valor : ℚ) (descricao uid : String)
    (now : Nat) : Option Goal :=
  if tipo = Tipo.retirada ∧ g.atual < valor then none
  else some (rebuild_goal_state
    { g with historico := g.historico ++
        [{ uid := uid, data := now, tipo := tipo, valor := valor,
           descricao := descricao, valor_acumulado := 0 }] })

/-- In-place update of the entry at a position, as the edit handler performs
on `goal["historico"][idx]`. -/
def setEntryFields : List Entry → Nat → ℚ → String → List Entry
  | [], _, _, _ => []
  | e :: es, 0, v, d => { e with valor := v, descricao := d } :: es
  | e :: es, n + 1, v, d => e :: setEntryFields es n v d

/-- The "Salvar Edição" handler: overwrite the value and description of the
chosen entry, rebuild, and persist only when no point of the rebuilt history
has a negative accumulated balance; otherwise nothing is persisted. -/
def salvarEdicao (g : Goal) (idx : Nat) (new_v : ℚ) (new_d : String) : Option Goal :=
  let g2 := rebuild_goal_state { g with historico := setEntryFields g.historico idx new_v new_d }
  if g2.historico.any (fun h => decide (h.valor_acumulado < 0)) then none else some g2

/-- The "Excluir Registro" handler: pop the chosen entry, rebuild, and
persist unconditionally; there is no negative-balance check on this path. -/
def excluirRegistro (g : Goal) (idx : Nat) : Goal :=
  rebuild_goal_state { g with historico := g.historico.eraseIdx idx }

theorem rebuildLoop_map_acc (r : ℚ) (es : List Entry) :
    ((rebuildLoop r es).1.map (fun e => e.valor_acumulado)) = runningTotals r es := by
  induction es generalizing r with
  | nil => simp [rebuildLoop, runningTotals]
  | cons e es ih => simp [rebuildLoop, runningTotals, ih]

theorem rebuildLoop_map_data (r : ℚ) (es : List Entry) :
    ((rebuildLoop r es).1.map Entry.data) = es.map Entry.data := by
  induction es generalizing r with
  | nil => simp [rebuildLoop]
  | cons e es ih => simp [rebuildLoop, ih]

theorem rebuildLoop_snd (r : ℚ) (es : List Entry) :
    (rebuildLoop r es).2 = es.foldl applyEntry r := by
  induction es generalizing r with
  | nil => simp [rebuildLoop]
  | cons e es ih => simp [rebuildLoop, ih, List.foldl_cons]

theorem applyEntry_set_acc (r x : ℚ) (e : Entry) :
    applyEntry r { e with valor_acumulado := x } = applyEntry r e := by
  cases e with
  | mk uid data tipo valor descricao acc => cases tipo <;> simp [applyEntry]

theorem rebuildLoop_idem (r : ℚ) (es : List Entry) :
    rebuildLoop r ((rebuildLoop r es).1) = rebuildLoop r es := by
  induction es generalizing r with
  | nil => simp [rebuildLoop]
  | cons e es ih => simp [rebuildLoop, applyEntry_set_acc, ih]

theorem sorted_entryLE_iff (l : List Entry) :
    List.Sorted entryLE l ↔ List.Sorted (fun a b => a ≤ b) (l.map Entry.data) := by
  unfold List.Sorted
  rw [List.pairwise_map]
  rfl

theorem rebuild_historico_sorted (g : Goal) :
    List.Sorted entryLE (rebuild_goal_state g).historico := by
  have hs : List.Sorted entryLE (List.insertionSort entryLE g.historico) :=
    List.sorted_insertionSort entryLE g.historico
  rw [rebuild_goal_state]
  rw [sorted_entryLE_iff]
  rw [rebuildLoop_map_data]
  rw [← sorted_entryLE_iff]
  exact hs

theorem decrypt_encrypt (key : Nat) (s : String) :
    DataProtector.decrypt key (DataProtector.encrypt key s) = some s := by
  by_cases h : s = ""
  · subst h
    simp [DataProtector.encrypt, DataProtector.decrypt]
  · simp [DataProtector.encrypt, DataProtector.decrypt, h]

theorem lg2Aux_eq (fuel n : Nat) (h : n ≤ fuel) : lg2Aux fuel n = Nat.log 2 n := by
  induction fuel generalizing n with
  | zero =>
    have hn : n = 0 := Nat.le_zero.mp h
    subst hn
    simp [lg2Aux]
  | succ fuel ih =>
    by_cases h2 : n < 2
    · have : Nat.log 2 n = 0 := Nat.log_eq_zero_iff.mpr (Or.inl h2)
      simp [lg2Aux, h2, this]
    · have hrec : lg2Aux fuel (n / 2) = Nat.log 2 (n / 2) := by
        apply ih
        have hlt : n / 2 < n := Nat.div_lt_self (by omega) (by omega)
        omega
      have hpos : 0 < Nat.log 2 n := Nat.log_pos (by omega) (by omega)
      have hdiv : Nat.log 2 (n / 2) = Nat.log 2 n - 1 := Nat.log_div_base 2 n
      simp only [lg2Aux, if_neg h2, hrec, hdiv]
      omega

theorem lg2_eq (n : Nat) : lg2 n = Nat.log 2 n := lg2Aux_eq n n (Nat.le_refl n)

theorem get_level_info_low (t : ℚ) (h : max (1 / 10) t < 100) :
    get_level_info t =
      { level := 0, current_level_min := 0, needed := 100 - max (1 / 10) t,
        progress := max (1 / 10) t / 100 } := by
  simp only [get_level_info, LEVEL_BASE_VALUE]
  rw [if_pos h]

theorem get_level_info_high (t : ℚ) (h : ¬ max (1 / 10) t < 100) :
    get_level_info t =
      { level := Nat.log 2 (Int.toNat ⌊max (1 / 10) t / 100⌋) + 1,
        current_level_min := 100 * 2 ^ Nat.log 2 (Int.toNat ⌊max (1 / 10) t / 100⌋),
        needed := 100 * 2 ^ (Nat.log 2 (Int.toNat ⌊max (1 / 10) t / 100⌋) + 1) - max (1 / 10) t,
        progress := min ((max (1 / 10) t - 100 * 2 ^ Nat.log 2 (Int.toNat ⌊max (1 / 10) t / 100⌋)) /
          (100 * 2 ^ (Nat.log 2 (Int.toNat ⌊max (1 / 10) t / 100⌋) + 1) -
            100 * 2 ^ Nat.log 2 (Int.toNat ⌊max (1 / 10) t / 100⌋))) 1 } := by
  simp only [get_level_info, LEVEL_BASE_VALUE, LEVEL_GROWTH_FACTOR]
  rw [if_neg h]
  simp only [lg2_eq, Nat.add_sub_cancel]

theorem floor_toNat_pos (t : ℚ) (h : ¬ max (1 / 10) t < 100) :
    1 ≤ Int.toNat ⌊max (1 / 10) t / 100⌋ := by
  have hq : (100 : ℚ) ≤ max (1 / 10) t := not_lt.mp h
  have h1 : (1 : ℚ) ≤ max (1 / 10) t / 100 := by
    rw [le_div_iff₀ (by norm_num)]
    linarith
  have hf1 : (1 : ℤ) ≤ ⌊max (1 / 10) t / 100⌋ := Int.le_floor.mpr (by exact_mod_cast h1)
  omega

theorem current_level_min_le (t : ℚ) (h : ¬ max (1 / 10) t < 100) :
    (100 : ℚ) * 2 ^ Nat.log 2 (Int.toNat ⌊max (1 / 10) t / 100⌋) ≤ max (1 / 10) t := by
  have hn1 : 1 ≤ Int.toNat ⌊max (1 / 10) t / 100⌋ := floor_toNat_pos t h
  have hpow : (2 : ℕ) ^ Nat.log 2 (Int.toNat ⌊max (1 / 10) t / 100⌋) ≤
      Int.toNat ⌊max (1 / 10) t / 100⌋ := Nat.pow_log_le_self 2 (by omega)
  have hcast : ((Int.toNat ⌊max (1 / 10) t / 100⌋ : ℚ)) ≤ max (1 / 10) t / 100 := by
    have h0 : (0 : ℤ) ≤ ⌊max (1 / 10) t / 100⌋ := by omega
    have h2 : ((⌊max (1 / 10) t / 100⌋ : ℤ) : ℚ) ≤ max (1 / 10) t / 100 := Int.floor_le _
    rw [← Int.toNat_of_nonneg h0] at h2
    exact_mod_cast h2
  have h3 : ((2 : ℚ)) ^ Nat.log 2 (Int.toNat ⌊max (1 / 10) t / 100⌋) ≤ max (1 / 10) t / 100 := by
    refine le_trans ?_ hcast
    exact_mod_cast hpow
  have h4 : (100 : ℚ) * 2 ^ Nat.log 2 (Int.toNat ⌊max (1 / 10) t / 100⌋) ≤
      100 * (max (1 / 10) t / 100) := by linarith
  have h5 : (100 : ℚ) * (max (1 / 10) t / 100) = max (1 / 10) t := by ring
  linarith

theorem neg_acc_iff_neg_step (g : Goal) :
    (∃ e ∈ (rebuild_goal_state g).historico, e.valor_acumulado < 0) ↔
      hasNegativeStep (List.insertionSort entryLE g.historico) := by
  have hmap := rebuildLoop_map_acc 0 (List.insertionSort entryLE g.historico)
  simp only [rebuild_goal_state, hasNegativeStep, ← hmap, List.mem_map]
  constructor
  · rintro ⟨e, he, hlt⟩
    exact ⟨e.valor_acumulado, ⟨e, he, rfl⟩, hlt⟩
  · rintro ⟨q, ⟨e, he, hq⟩, hlt⟩
    exact ⟨e, he, hq ▸ hlt⟩

/-- The goal of spec scenario 2: one contribution of 100 at t=1 followed by
one withdrawal of 150 at t=2. -/
def c2goal : Goal :=
  { id := "g2", nome := "meta", tipo := GoalTipo.patrimonio, objetivo := 1000, atual := 100,
    historico := [⟨"u1", 1, Tipo.aporte, 100, "", 100⟩, ⟨"u2", 2, Tipo.retirada, 150, "", 0⟩] }

/-- C2 counterexample: on [Contribution 100 t=1, Withdrawal 150 t=2], the
rebuild operation of the source does not fail at all: it returns a rebuilt
goal carrying the negative balance, with `atual = -50` and the t=2 entry
(uid "u2") holding `valor_acumulado = -50`, instead of an InvariantViolation
outcome referencing that entry. -/
theorem rebuild_does_not_fail_on_negative_example :
    (rebuild_goal_state c2goal).atual = -50 ∧
    ((rebuild_goal_state c2goal).historico.map fun e => (e.uid, e.valor_acumulado)) =
      [("u1", 100), ("u2", -50)] := by
  norm_num [rebuild_goal_state, rebuildLoop, applyEntry, List.insertionSort,
    List.orderedInsert, entryLE, c2goal]

/-- C2 (amended): `rebuild_goal_state` is total and has no failure outcome;
it records each prefix running balance, negative ones included, in
`valor_acumulado`.  The negative-balance condition is detected only by its
caller scanning the rebuilt history for a negative `valor_acumulado`, and
that scan succeeds exactly when the running total of the timestamp-ordered
fold goes below zero at some step. -/
theorem rebuild_total_negativity_detected_by_caller (g : Goal) :
    (∃ e ∈ (rebuild_goal_state g).historico, e.valor_acumulado < 0) ↔
      hasNegativeStep (List.insertionSort entryLE g.historico) :=
  neg_acc_iff_neg_step g

/-- The goal of spec scenario 1: a contribution of 100 at t=2 inserted
before a contribution of 50 at t=1. -/
def c3goal : Goal :=
  { id := "g3", nome := "meta", tipo := GoalTipo.patrimonio, objetivo := 1000, atual := 0,
    historico := [⟨"u2", 2, Tipo.aporte, 100, "", 0⟩, ⟨"u1", 1, Tipo.aporte, 50, "", 0⟩] }

/-- The expected rebuild of `c3goal`: entries reordered to (t=1, t=2) with
accumulated values 50 and 150, and `atual = 150`. -/
def c3rebuilt : Goal :=
  { id := "g3", nome := "meta", tipo := GoalTipo.patrimonio, objetivo := 1000, atual := 150,
    historico := [⟨"u1", 1, Tipo.aporte, 50, "", 50⟩, ⟨"u2", 2, Tipo.aporte, 100, "", 150⟩] }

/-- C3: the rebuild sorts the history by timestamp ascending, assigns each
entry the running total of the fold (contribution adds, withdrawal
subtracts, correction overwrites the total ignoring the prior balance), sets
`atual` to the final total (0 for an empty history), and on scenario 1
produces order (t=1, accumulated 50), (t=2, accumulated 150) with
`atual = 150`. -/
theorem rebuild_sorts_and_folds :
    (∀ g : Goal,
      List.Sorted entryLE (rebuild_goal_state g).historico ∧
      ((rebuild_goal_state g).historico.map fun e => e.valor_acumulado) =
        runningTotals 0 (List.insertionSort entryLE g.historico) ∧
      (rebuild_goal_state g).atual =
        List.foldl applyEntry 0 (List.insertionSort entryLE g.historico) ∧
      (∀ (r1 r2 : ℚ) (e : Entry), e.tipo = Tipo.ajuste → applyEntry r1 e = applyEntry r2 e)) ∧
    rebuild_goal_state c3goal = c3rebuilt := by
  constructor
  · intro g
    refine ⟨rebuild_historico_sorted g, ?_, ?_, ?_⟩
    · simp [rebuild_goal_state, rebuildLoop_map_acc]
    · simp [rebuild_goal_state, rebuildLoop_snd]
    · intro r1 r2 e h
      simp [applyEntry, h]
  · norm_num [rebuild_goal_state, rebuildLoop, applyEntry, List.insertionSort,
      List.orderedInsert, entryLE, c3goal, c3rebuilt]

/-- Witness for C3 at concrete inputs. -/
theorem rebuild_sorts_and_folds_witness :
    (rebuild_goal_state c3goal).atual =
      List.foldl applyEntry 0 (List.insertionSort entryLE c3goal.historico) ∧
    applyEntry 7 ⟨"w", 0, Tipo.ajuste, 3, "", 0⟩ = applyEntry 0 ⟨"w", 0, Tipo.ajuste, 3, "", 0⟩ :=
  ⟨(rebuild_sorts_and_folds.1 c3goal).2.2.1,
   (rebuild_sorts_and_folds.1 c3goal).2.2.2 7 0 ⟨"w", 0, Tipo.ajuste, 3, "", 0⟩ rfl⟩

/-- C8: the rebuild is idempotent: rebuilding a goal that was just rebuilt
reproduces the same entry order, the same accumulated values and the same
`atual`. -/
theorem rebuild_idempotent (g : Goal) :
    rebuild_goal_state (rebuild_goal_state g) = rebuild_goal_state g := by
  have hsorted : List.Sorted entryLE (rebuild_goal_state g).historico :=
    rebuild_historico_sorted g
  have heq : List.insertionSort entryLE (rebuild_goal_state g).historico =
      (rebuild_goal_state g).historico := hsorted.insertionSort_eq
  cases g with
  | mk id nome tipo objetivo atual historico =>
    simp only [rebuild_goal_state] at heq ⊢
    rw [heq, rebuildLoop_idem]

/-- C5 counterexample: score(0) does not return amountToNext = 100; after
flooring the input at 0.1 the source computes 100 - 0.1 = 99.9. -/
theorem score_zero_needed_not_hundred :
    (get_level_info 0).needed ≠ 100 ∧ (get_level_info 0).needed = 999 / 10 := by
  norm_num [get_level_info, LEVEL_BASE_VALUE, max_def]

/-- C5 (amended): the concrete level scenarios as the source computes them:
score(0) gives level 0, floor 0, amountToNext 99.9 and progress 0.001
(approximately 0); score(100), score(150) and score(200) are exactly as the
claim states. -/
theorem level_scenarios_amended :
    get_level_info 0 =
      { level := 0, current_level_min := 0, needed := 999 / 10, progress := 1 / 1000 } ∧
    get_level_info 100 =
      { level := 1, current_level_min := 100, needed := 100, progress := 0 } ∧
    get_level_info 150 =
      { level := 1, current_level_min := 100, needed := 50, progress := 1 / 2 } ∧
    get_level_info 200 =
      { level := 2, current_level_min := 200, needed := 200, progress := 0 } := by
  refine ⟨?_, ?_, ?_, ?_⟩ <;>
    norm_num [get_level_info, LEVEL_BASE_VALUE, LEVEL_GROWTH_FACTOR, max_def,
      Int.floor_eq_iff, lg2, lg2Aux, show Int.toNat 2 = 2 from rfl,
      show Int.toNat 1 = 1 from rfl]

/-- C6: opening a token sealed under the same key returns the original
plaintext for every key and every string; the empty string seals to an empty
token and opens back to the empty string rather than a failure. -/
theorem seal_open_roundtrip :
    (∀ (key : Nat) (s : String),
      DataProtector.decrypt key (DataProtector.encrypt key s) = some s) ∧
    (∀ key : Nat, DataProtector.encrypt key "" = Token.empty) ∧
    (∀ key : Nat, DataProtector.decrypt key Token.empty = some "") :=
  ⟨decrypt_encrypt, fun _ => by simp [DataProtector.encrypt], fun _ => rfl⟩

/-- A consistent goal whose history is a contribution of 100 at t=1 followed
by a withdrawal of 50 at t=2; deleting the contribution leaves a history
whose replay is negative from its first prefix. -/
def c1goal : Goal :=
  { id := "g1", nome := "meta", tipo := GoalTipo.patrimonio, objetivo := 1000, atual := 50,
    historico := [⟨"u1", 1, Tipo.aporte, 100, "", 100⟩, ⟨"u2", 2, Tipo.retirada, 50, "", 50⟩] }

/-- C1 counterexample: the "Excluir Registro" handler deletes the t=1
contribution of `c1goal`, rebuilds and persists without any check, leaving a
persisted state whose only entry carries `valor_acumulado = -50` and whose
`atual` changed from 50 to -50 — the mutation is neither rejected nor does
it leave the goal as it was. -/
theorem delete_entry_negative_balance_persisted :
    ((excluirRegistro c1goal 0).historico.map fun e => e.valor_acumulado) = [-50] ∧
    (excluirRegistro c1goal 0).atual = -50 ∧
    (excluirRegistro c1goal 0).atual ≠ c1goal.atual := by
  norm_num [excluirRegistro, rebuild_goal_state, rebuildLoop, applyEntry,
    List.insertionSort, List.orderedInsert, entryLE, List.eraseIdx, c1goal]

/-- C1 (amended): editing an entry is rejected (nothing persisted) exactly
when the rebuilt history would carry a negative running balance at some
prefix of the timestamp-ordered fold, but deleting an entry is persisted
unconditionally: the delete handler is the bare rebuild of the shortened
history, with no negative-balance guard. -/
theorem mutation_guard_edit_only :
    (∀ (g : Goal) (idx : Nat) (v : ℚ) (d : String),
      salvarEdicao g idx v d = none ↔
        hasNegativeStep (List.insertionSort entryLE (setEntryFields g.historico idx v d))) ∧
    (∀ (g : Goal) (idx : Nat),
      excluirRegistro g idx =
        rebuild_goal_state { g with historico := g.historico.eraseIdx idx }) := by
  constructor
  · intro g idx v d
    have hdet := neg_acc_iff_neg_step
      { g with historico := setEntryFields g.historico idx v d }
    have hany : ((rebuild_goal_state
        { g with historico := setEntryFields g.historico idx v d }).historico.any
          (fun h => decide (h.valor_acumulado < 0)) = true) ↔
        hasNegativeStep (List.insertionSort entryLE (setEntryFields g.historico idx v d)) := by
      rw [List.any_eq_true]
      simpa using hdet
    simp only [salvarEdicao]
    rw [← hany]
    by_cases hb : (rebuild_goal_state
        { g with historico := setEntryFields g.historico idx v d }).historico.any
        (fun h => decide (h.valor_acumulado < 0)) = true
    · simp [hb]
    · simp [hb]
  · intro g idx
    rfl

/-- C4: after a goal save or delete the persisted sealed total decrypts to
the sum of `atual` over the readable goals of kind "Patrimônio" of that
owner, the aggregate of an empty goal list is 0, and a goal list with no
"Patrimônio" goal aggregates to 0 (the aggregation is a total function). -/
theorem patrimony_synced_after_mutations :
    (∀ (key : Nat) (user : String) (db : DB) (g : Goal),
      DataProtector.decrypt key (save_goal key user g db).total_patrimony_enc =
        some (toString (aggregate (get_goals key user (save_goal key user g db).rows)))) ∧
    (∀ (key : Nat) (user : String) (db : DB) (gid : String),
      DataProtector.decrypt key (delete_goal key user gid db).total_patrimony_enc =
        some (toString (aggregate (get_goals key user (delete_goal key user gid db).rows)))) ∧
    aggregate [] = 0 ∧
    (∀ metas : List Goal,
      (∀ m ∈ metas, m.tipo ≠ GoalTipo.patrimonio) → aggregate metas = 0) := by
  refine ⟨?_, ?_, ?_, ?_⟩
  · intro key user db g
    simp [save_goal, sync_global_patrimony, set_user_patrimony, decrypt_encrypt]
  · intro key user db gid
    simp [delete_goal, sync_global_patrimony, set_user_patrimony, decrypt_encrypt]
  · simp [aggregate]
  · intro metas hnone
    have hfilter : metas.filter (fun m => m.tipo == GoalTipo.patrimonio) = [] := by
      rw [List.filter_eq_nil_iff]
      intro m hm
      simpa using hnone m hm
    simp [aggregate, hfilter]

/-- A goal of kind "Aporte Periódico", which does not count toward the
patrimony aggregate. -/
def periodicGoal : Goal :=
  { id := "p1", nome := "mensal", tipo := GoalTipo.aportePeriodico, objetivo := 500, atual := 75,
    historico := [] }

/-- Witness for C4 at a concrete input. -/
theorem patrimony_synced_after_mutations_witness :
    (∀ m ∈ [periodicGoal], m.tipo ≠ GoalTipo.patrimonio) ∧ aggregate [periodicGoal] = 0 :=
  ⟨by simp [periodicGoal], patrimony_synced_after_mutations.2.2.2 [periodicGoal]
    (by simp [periodicGoal])⟩

/-- C7: the level is non-decreasing in the total, and for every non-negative
total the progress fraction lies in [0, 1]. -/
theorem level_monotone_progress_bounded :
    ∀ t1 t2 t : ℚ,
      (t1 ≤ t2 → (get_level_info t1).level ≤ (get_level_info t2).level) ∧
      (0 ≤ t → 0 ≤ (get_level_info t).progress ∧ (get_level_info t).progress ≤ 1) := by
  intro t1 t2 t
  constructor
  · intro h12
    have hmax : max (1 / 10) t1 ≤ max (1 / 10) t2 := max_le_max le_rfl h12
    by_cases h2 : max (1 / 10) t2 < 100
    · have h1 : max (1 / 10) t1 < 100 := lt_of_le_of_lt hmax h2
      rw [get_level_info_low t1 h1, get_level_info_low t2 h2]
    · by_cases h1 : max (1 / 10) t1 < 100
      · rw [get_level_info_low t1 h1, get_level_info_high t2 h2]
        exact Nat.zero_le _
      · rw [get_level_info_high t1 h1, get_level_info_high t2 h2]
        have hdivle : max (1 / 10) t1 / 100 ≤ max (1 / 10) t2 / 100 :=
          (div_le_div_iff_of_pos_right (by norm_num)).mpr hmax
        have hfloor : ⌊max (1 / 10) t1 / 100⌋ ≤ ⌊max (1 / 10) t2 / 100⌋ :=
          Int.floor_mono hdivle
        have htoNat : Int.toNat ⌊max (1 / 10) t1 / 100⌋ ≤
            Int.toNat ⌊max (1 / 10) t2 / 100⌋ := by omega
        exact Nat.succ_le_succ (Nat.log_mono_right htoNat)
  · intro _
    by_cases h : max (1 / 10) t < 100
    · rw [get_level_info_low t h]
      have h0 : (0 : ℚ) ≤ max (1 / 10) t := le_trans (by norm_num) (le_max_left _ _)
      constructor
      · exact div_nonneg h0 (by norm_num)
      · rw [div_le_one (by norm_num)]
        linarith
    · rw [get_level_info_high t h]
      have hcmin := current_level_min_le t h
      have hden : (0 : ℚ) < 100 * 2 ^ (Nat.log 2 (Int.toNat ⌊max (1 / 10) t / 100⌋) + 1) -
          100 * 2 ^ Nat.log 2 (Int.toNat ⌊max (1 / 10) t / 100⌋) := by
        have hp : (0 : ℚ) < 2 ^ Nat.log 2 (Int.toNat ⌊max (1 / 10) t / 100⌋) := by positivity
        rw [pow_succ]
        nlinarith
      constructor
      · refine le_min ?_ zero_le_one
        exact div_nonneg (by linarith) (le_of_lt hden)
      · exact min_le_right _ _

/-- Witness for C7 at concrete inputs. -/
theorem level_monotone_progress_bounded_witness :
    ((50 : ℚ) ≤ 300 ∧ (get_level_info 50).level ≤ (get_level_info 300).level) ∧
    ((0 : ℚ) ≤ 7 ∧ 0 ≤ (get_level_info 7).progress ∧ (get_level_info 7).progress ≤ 1) :=
  ⟨⟨by norm_num, (level_monotone_progress_bounded 50 300 7).1 (by norm_num)⟩,
   ⟨by norm_num, (level_monotone_progress_bounded 50 300 7).2 (by norm_num)⟩⟩

/-- C9: a stored goal row whose payload does not decrypt under the session
key, or whose decrypted payload does not parse as a goal document, is
silently omitted by `get_goals`, and the resynchronized persisted total is
the sum over the readable "Patrimônio" goals only; neither operation has a
failure outcome. -/
theorem unreadable_rows_skipped :
    (∀ (key : Nat) (user : String) (pre post : List GoalRow) (bad : GoalRow),
      bad.owner = user →
      (decrypt_payload key bad.encrypted_payload).bind json_loads = none →
      get_goals key user (pre ++ bad :: post) = get_goals key user (pre ++ post)) ∧
    (∀ (key : Nat) (user : String) (db : DB),
      DataProtector.decrypt key (sync_global_patrimony key user db).total_patrimony_enc =
        some (toString (aggregate (get_goals key user db.rows)))) := by
  constructor
  · intro key user pre post bad howner hunreadable
    simp [get_goals, List.filter_append, List.filter_cons, howner,
      List.filterMap_append, List.filterMap_cons, hunreadable]
  · intro key user db
    simp [sync_global_patrimony, set_user_patrimony, decrypt_encrypt]

/-- A goal row of user "ana" readable under key 1. -/
def goodRow : GoalRow :=
  { id := "r1", owner := "ana",
    encrypted_payload := encrypt_payload 1 (json_dumps periodicGoal) }

/-- A goal row of user "ana" whose payload decrypts under key 1 to junk that
fails to parse. -/
def badRow : GoalRow :=
  { id := "r2", owner := "ana", encrypted_payload := Token.cipher 1 (Doc.junk "corrupt") }

/-- Witness for C9 at a concrete input. -/
theorem unreadable_rows_skipped_witness :
    badRow.owner = "ana" ∧
    (decrypt_payload 1 badRow.encrypted_payload).bind json_loads = none ∧
    get_goals 1 "ana" ([goodRow] ++ badRow :: []) = get_goals 1 "ana" ([goodRow] ++ []) :=
  ⟨rfl, by simp [badRow, decrypt_payload, json_loads],
   unreadable_rows_skipped.1 1 "ana" [goodRow] [] badRow rfl
     (by simp [badRow, decrypt_payload, json_loads])⟩

/-- C10: the "Registrar" handler never rejects a new contribution or
correction; it rejects a withdrawal exactly when its amount strictly exceeds
the displayed balance; and on a consistent goal (sorted history whose fold
equals `atual`, all timestamps at or before now) a withdrawal of exactly the
current balance is accepted and leaves the rebuilt balance at 0. -/
theorem registrar_precheck :
    ∀ (g : Goal) (v : ℚ) (d u : String) (n : Nat),
      (registrar g Tipo.aporte v d u n).isSome = true ∧
      (registrar g Tipo.ajuste v d u n).isSome = true ∧
      (registrar g Tipo.retirada v d u n = none ↔ g.atual < v) ∧
      (List.Sorted entryLE g.historico →
        (∀ e ∈ g.historico, e.data ≤ n) →
        g.atual = List.foldl applyEntry 0 g.historico →
        v = g.atual →
        ∃ g2, registrar g Tipo.retirada v d u n = some g2 ∧ g2.atual = 0) := by
  intro g v d u n
  refine ⟨by simp [registrar], by simp [registrar], ?_, ?_⟩
  · by_cases hlt : g.atual < v <;> simp [registrar, hlt]
  · intro hs hle hat hv
    have hcond : ¬(Tipo.retirada = Tipo.retirada ∧ g.atual < v) := by
      simp [hv]
    have hsorted : List.Sorted entryLE (g.historico ++
        [{ uid := u, data := n, tipo := Tipo.retirada, valor := v,
           descricao := d, valor_acumulado := 0 }]) := by
      refine List.pairwise_append.mpr ⟨hs, List.pairwise_singleton _ _, ?_⟩
      intro a ha b hb
      simp only [List.mem_singleton] at hb
      subst hb
      exact hle a ha
    refine ⟨_, by rw [registrar, if_neg hcond], ?_⟩
    rw [rebuild_goal_state]
    simp only [hsorted.insertionSort_eq, rebuildLoop_snd, List.foldl_append]
    rw [← hat]
    simp [applyEntry, hv]

/-- A consistent one-entry goal used to witness C10: one contribution of 100
at t=1, balance 100. -/
def c10goal : Goal :=
  { id := "g10", nome := "meta", tipo := GoalTipo.patrimonio, objetivo := 0, atual := 100,
    historico := [⟨"u1", 1, Tipo.aporte, 100, "", 100⟩] }

/-- Witness for C10 at a concrete input: withdrawing exactly the balance of
`c10goal` is accepted and leaves the balance at 0. -/
theorem registrar_precheck_witness :
    List.Sorted entryLE c10goal.historico ∧
    (∀ e ∈ c10goal.historico, e.data ≤ 5) ∧
    c10goal.atual = List.foldl applyEntry 0 c10goal.historico ∧
    (100 : ℚ) = c10goal.atual ∧
    ∃ g2, registrar c10goal Tipo.retirada 100 "d" "u2" 5 = some g2 ∧ g2.atual = 0 := by
  have h1 : List.Sorted entryLE c10goal.historico := by
    simp [c10goal, List.sorted_singleton]
  have h2 : ∀ e ∈ c10goal.historico, e.data ≤ 5 := by
    simp [c10goal]
  have h3 : c10goal.atual = List.foldl applyEntry 0 c10goal.historico := by
    norm_num [c10goal, applyEntry]
  have h4 : (100 : ℚ) = c10goal.atual := by
    norm_num [c10goal]
  exact ⟨h1, h2, h3, h4,
    (registrar_precheck c10goal 100 "d" "u2" 5).2.2.2 h1 h2 h3 h4⟩

end Atlas
